import Mathlib

/-!
Shallow embedding of the Netflix subscription tracker (src/App.tsx, src/types.ts).

Modelling conventions:
* A JavaScript `Date` holding a midnight instant is modelled by its epoch-day
  number (days since 1970-01-01, proleptic Gregorian).  `new Date("YYYY-MM-DD")`
  yields midnight of that civil date, and for the comparisons and differences
  performed by the code all dates sit at midnight of the same clock, so civil
  dates and epoch-day numbers carry exactly the information the code uses.
* `Date.prototype.setMonth` and the `new Date(year, month, day)` constructor
  follow ECMAScript `MakeDay`: the month index is normalised by floor
  division/modulo 12 into the year, and the day count is added to the first of
  the resulting month (so day values beyond the month length overflow into the
  following month).  `jsMakeDay` below implements exactly that.
* JavaScript numbers appearing here (monthsPaid, amount, prices, counts) are
  integers in every code path the spec covers, so they are modelled as Nat/Int.
* `String(n)` / `Number.prototype.toString()` on a nonnegative integer is the
  usual decimal numeral, modelled by `natDecStr`.
* The `startDate` field is stored by the code as an ISO "YYYY-MM-DD" string and
  immediately parsed into its year/month/day components wherever it is used;
  it is modelled by the component triple `CivilDate`.
-/

inductive SubscriptionStatus where
  | Active
  | ExpiringSoon
  | Expired
deriving DecidableEq, Repr

inductive AccountType where
  | Share
  | Private
deriving DecidableEq, Repr

/-- The year/month/day components of an ISO `YYYY-MM-DD` date string
(month is 1-based, as in the string). -/
structure CivilDate where
  year : Int
  month : Nat
  day : Nat
deriving DecidableEq, Repr

/-- The `Customer` interface of src/types.ts. -/
structure Customer where
  id : String
  customerName : String
  profileName : String
  startDate : CivilDate
  monthsPaid : Nat
  amount : Int
  note : String
  netflixEmail : String
  accountType : AccountType
deriving DecidableEq, Repr

/-- The `MonthlyRecord` interface of src/types.ts. -/
structure MonthlyRecord where
  month : String
  activeUsers : Nat
  totalIncome : Int
deriving DecidableEq, Repr

/-! ## Gregorian calendar arithmetic (the part of ECMAScript `Date` the code uses) -/

def isLeap (y : Int) : Bool := y % 4 == 0 && (y % 100 != 0 || y % 400 == 0)

/-- Length of month `m` (1-based) of year `y`. -/
def monthLength (y : Int) (m : Nat) : Nat :=
  match m with
  | 2 => if isLeap y then 29 else 28
  | 4 => 30
  | 6 => 30
  | 9 => 30
  | 11 => 30
  | _ => 31

/-- Days from January 1 to the first day of month `m` (1-based) in year `y`. -/
def daysInMonthsBefore (y : Int) (m : Nat) : Nat :=
  (match m with
   | 1 => 0 | 2 => 31 | 3 => 59 | 4 => 90 | 5 => 120 | 6 => 151
   | 7 => 181 | 8 => 212 | 9 => 243 | 10 => 273 | 11 => 304 | _ => 334) +
  (if isLeap y ∧ 3 ≤ m then 1 else 0)

/-- Number of leap years in `[0, y)` (negated count of `[y, 0)` for negative `y`). -/
def leapCount (y : Int) : Int := (y + 3) / 4 - (y + 99) / 100 + (y + 399) / 400

/-- Days from 0000-01-01 to the first day of year `y` (proleptic Gregorian). -/
def daysBeforeYear (y : Int) : Int := 365 * y + leapCount y

/-- Days from 0000-01-01 to 1970-01-01. -/
def epochOffset : Int := 719528

/-- Epoch-day number of the civil date `(y, m, d)`; linear in `d`, so day
values beyond the month length overflow into following months exactly as in
ECMAScript `MakeDay`. -/
def daysFromCivil (y : Int) (m : Nat) (d : Int) : Int :=
  daysBeforeYear y + daysInMonthsBefore y m + d - 1 - epochOffset

/-- Year component after normalising a 0-based month index (ECMAScript `MakeDay`). -/
def normYear (y mIdx : Int) : Int := y + mIdx / 12

/-- 0-based month component after normalising a 0-based month index. -/
def normMonth (mIdx : Int) : Nat := (mIdx % 12).toNat

/-- ECMAScript `MakeDay(y, mIdx, d)` as an epoch-day number: normalise the
0-based month index into the year, then add `d - 1` days to the first of that
month.  This is the semantics of both `new Date(year, month, day)` and
`setMonth`. -/
def jsMakeDay (y : Int) (mIdx : Int) (d : Int) : Int :=
  daysFromCivil (normYear y mIdx) (normMonth mIdx + 1) d

/-- `Math.ceil` of an exact rational `a / b` for `b > 0`, as used on
millisecond differences. -/
def jsCeilDiv (a b : Int) : Int := -(-a / b)

def msPerDay : Int := 86400000

/-! ## Decimal rendering of numbers (JS template literals and `toString`) -/

def digitChar (d : Nat) : Char := Char.ofNat (48 + d)

def decCharsAux (fuel : Nat) (n : Nat) : List Char :=
  match fuel with
  | 0 => []
  | f + 1 =>
    if n < 10 then [digitChar n]
    else decCharsAux f (n / 10) ++ [digitChar (n % 10)]

/-- The decimal digit characters of `n`, most significant first (the fuel is
an artifact making the recursion structural; `decCharsAux_congr` shows any
sufficient fuel gives the same value). -/
def decChars (n : Nat) : List Char := decCharsAux (n + 1) n

def natDecStr (n : Nat) : String := String.mk (decChars n)

def intDecStr (i : Int) : String :=
  if i < 0 then "-" ++ natDecStr (-i).toNat else natDecStr i.toNat

/-- `${year}-${String(month + 1).padStart(2, '0')}` for a 0-based month < 12:
the decimal month numeral has at most two digits, so padding prepends a zero
exactly when the 1-based month is below 10. -/
def monthStr (y : Int) (m1 : Nat) : String :=
  intDecStr y ++ "-" ++ (if m1 < 10 then "0" else "") ++ natDecStr m1

/-! ## The derived-data pipeline of src/App.tsx -/

def SHARE_PRICE : Int := 8500
def PRIVATE_PRICE : Int := 16000

/-- Epoch-day number of `new Date(customer.startDate)`. -/
def startDays (c : Customer) : Int :=
  jsMakeDay c.startDate.year ((c.startDate.month : Int) - 1) c.startDate.day

/-- Epoch-day number of the expiry date: `expiryDate.setMonth(expiryDate.getMonth()
+ customer.monthsPaid)` applied to a copy of the start date. -/
def customerExpiryDays (c : Customer) : Int :=
  jsMakeDay c.startDate.year ((c.startDate.month : Int) - 1 + c.monthsPaid) c.startDate.day

structure SubDetails where
  expiryDays : Int
  daysLeft : Int
  status : SubscriptionStatus
deriving DecidableEq, Repr

/-- `calculateSubscriptionDetails` (src/App.tsx lines 102-121).  `todayDays` is
the epoch-day number of today at midnight (`today.setHours(0,0,0,0)`). -/
def calculateSubscriptionDetails (todayDays : Int) (c : Customer) : SubDetails :=
  let expiry := customerExpiryDays c
  let timeDiff := expiry * msPerDay - todayDays * msPerDay
  let daysLeft := jsCeilDiv timeDiff msPerDay
  { expiryDays := expiry
    daysLeft := daysLeft
    status :=
      if daysLeft ≤ 0 then SubscriptionStatus.Expired
      else if daysLeft ≤ 7 then SubscriptionStatus.ExpiringSoon
      else SubscriptionStatus.Active }

/-- `processedCustomers`: every customer paired with its computed details. -/
def processCustomers (todayDays : Int) (cs : List Customer) :
    List (Customer × SubDetails) :=
  cs.map fun c => (c, calculateSubscriptionDetails todayDays c)

/-- The two filter stages of `displayCustomers`; `none` models the `'All'`
setting of the corresponding dropdown. -/
def filterCustomers (fs : Option SubscriptionStatus) (fe : Option String)
    (l : List (Customer × SubDetails)) : List (Customer × SubDetails) :=
  let l1 :=
    match fs with
    | none => l
    | some s => l.filter fun p => p.2.status == s
  match fe with
  | none => l1
  | some e => l1.filter fun p => p.1.netflixEmail == e

inductive SortDirection where
  | ascending
  | descending
deriving DecidableEq, Repr

structure SortConfig where
  key : String
  direction : SortDirection
deriving DecidableEq, Repr

/-- `handleSort` (src/App.tsx lines 196-202). -/
def handleSort (cfg : SortConfig) (k : String) : SortConfig :=
  if cfg.key = k ∧ cfg.direction = SortDirection.ascending then
    { key := k, direction := SortDirection.descending }
  else
    { key := k, direction := SortDirection.ascending }

/-- The comparator body of `displayCustomers`: `1` if `a[key] > b[key]`, `-1`
if `a[key] < b[key]`, else `0`.  The row field selected by `sortConfig.key` is
modelled by a key function into a linearly ordered type (JS compares the
string/number/date fields involved by their natural order). -/
def jsCompare {α β : Type} [LinearOrder β] (key : α → β) (a b : α) : Int :=
  if key a > key b then 1 else if key a < key b then -1 else 0

/-- The full comparator: `direction === 'ascending' ? comparison : -comparison`. -/
def dirCompare {α β : Type} [LinearOrder β] (key : α → β) (dir : SortDirection)
    (a b : α) : Int :=
  match dir with
  | SortDirection.ascending => jsCompare key a b
  | SortDirection.descending => -(jsCompare key a b)

/-- `Array.prototype.sort` with a consistent comparator: a stable sort placing
`a` no later than `b` whenever the comparator is ≤ 0 (modelled by insertion
sort, which realises exactly that specification). -/
def jsSortBy {α β : Type} [LinearOrder β] (key : α → β) (dir : SortDirection)
    (l : List α) : List α :=
  List.insertionSort (fun a b => dirCompare key dir a b ≤ 0) l

/-- `displayCustomers` (src/App.tsx lines 130-158): filter, then sort. -/
def displayCustomers {β : Type} [LinearOrder β] (todayDays : Int)
    (fs : Option SubscriptionStatus) (fe : Option String)
    (key : Customer × SubDetails → β) (dir : SortDirection)
    (cs : List Customer) : List (Customer × SubDetails) :=
  jsSortBy key dir (filterCustomers fs fe (processCustomers todayDays cs))

/-! ## Monthly history aggregation -/

def priceOf (c : Customer) : Int :=
  if c.accountType = AccountType.Private then PRIVATE_PRICE else SHARE_PRICE

/-- The overlap test of `historyData`: `startDate <= monthEndDate && expiryDate >
monthStartDate`, where `monthStartDate = new Date(y, m0, 1)` and `monthEndDate =
new Date(y, m0 + 1, 0)` (`m0` 0-based). -/
def countedInMonth (y : Int) (m0 : Nat) (c : Customer) : Prop :=
  startDays c ≤ jsMakeDay y ((m0 : Int) + 1) 0 ∧ jsMakeDay y (m0 : Int) 1 < customerExpiryDays c

instance (y : Int) (m0 : Nat) (c : Customer) : Decidable (countedInMonth y m0 c) := by
  unfold countedInMonth; infer_instance

/-- One record of `historyData`: the `forEach` accumulation over the customer
list for the (already normalised) month `(y, m0)`. -/
def monthlyRecord (customers : List Customer) (y : Int) (m0 : Nat) : MonthlyRecord :=
  let counts := customers.foldl
    (fun acc c =>
      if countedInMonth y m0 c then (acc.1 + 1, acc.2 + priceOf c) else acc)
    ((0 : Nat), (0 : Int))
  { month := monthStr y (m0 + 1), activeUsers := counts.1, totalIncome := counts.2 }

/-- `historyData` (src/App.tsx lines 160-194): the trailing 12 calendar months,
oldest first, where `todayMonth0` is today's 0-based month.  Iteration `i`
(from 11 down to 0) uses `new Date(todayYear, todayMonth0 - i, 1)`. -/
def historyData (customers : List Customer) (todayYear : Int) (todayMonth0 : Nat) :
    List MonthlyRecord :=
  (List.range 12).map fun k =>
    let i : Nat := 11 - k
    let mIdx : Int := (todayMonth0 : Int) - (i : Int)
    monthlyRecord customers (normYear todayYear mIdx) (normMonth mIdx)

/-! ## CRUD handlers -/

/-- `handleDeleteCustomer` (src/App.tsx lines 214-218); `confirmed` is the
result of `window.confirm`. -/
def handleDeleteCustomer (confirmed : Bool) (id : String)
    (customers : List Customer) : List Customer :=
  if confirmed then customers.filter fun c => c.id != id else customers

/-- `Omit<Customer, 'id'>`: the payload of a create operation. -/
structure CustomerDraft where
  customerName : String
  profileName : String
  startDate : CivilDate
  monthsPaid : Nat
  amount : Int
  note : String
  netflixEmail : String
  accountType : AccountType
deriving DecidableEq, Repr

def withId (id : String) (d : CustomerDraft) : Customer :=
  { id := id, customerName := d.customerName, profileName := d.profileName
    startDate := d.startDate, monthsPaid := d.monthsPaid, amount := d.amount
    note := d.note, netflixEmail := d.netflixEmail, accountType := d.accountType }

/-- The update branch of `handleSaveCustomer` (payload carries an `id`). -/
def updateCustomer (data : Customer) (customers : List Customer) : List Customer :=
  customers.map fun c => if c.id == data.id then data else c

/-- The create branch of `handleSaveCustomer`: id from `new Date().getTime()
.toString()` where `now` is the current timestamp, record appended. -/
def createCustomer (now : Nat) (data : CustomerDraft) (customers : List Customer) :
    List Customer :=
  customers ++ [withId (natDecStr now) data]

/-- JS `x || dflt` for a possibly-undefined string (`none` = undefined, and the
empty string is falsy). -/
def jsOrStr (o : Option String) (dflt : String) : String :=
  match o with
  | none => dflt
  | some s => if s = "" then dflt else s

/-- JS `x || dflt` for a possibly-undefined number (`0` is falsy). -/
def jsOrInt (o : Option Int) (dflt : Int) : Int :=
  match o with
  | none => dflt
  | some v => if v = 0 then dflt else v

/-- An imported row: `customerName`, `startDate`, `monthsPaid` present, the
rest possibly missing. -/
structure ImportRow where
  customerName : String
  profileName : Option String
  startDate : CivilDate
  monthsPaid : Nat
  amount : Option Int
  note : Option String
  netflixEmail : Option String
  accountType : Option AccountType
deriving DecidableEq, Repr

/-- Id `` `${new Date().getTime()}-${index}` `` of the `index`-th imported row. -/
def importId (now : Nat) (idx : Nat) : String :=
  natDecStr now ++ "-" ++ natDecStr idx

def importRowToCustomer (now idx : Nat) (r : ImportRow) : Customer :=
  { id := importId now idx, customerName := r.customerName
    profileName := jsOrStr r.profileName "", startDate := r.startDate
    monthsPaid := r.monthsPaid, amount := jsOrInt r.amount 0
    note := jsOrStr r.note "", netflixEmail := jsOrStr r.netflixEmail ""
    accountType := r.accountType.getD AccountType.Share }

def mapWithIndex {α β : Type} (f : Nat → α → β) : Nat → List α → List β
  | _, [] => []
  | i, r :: rs => f i r :: mapWithIndex f (i + 1) rs

/-- `handleImportCustomers` (src/App.tsx lines 238-252): map rows with their
index, append all. -/
def importCustomers (now : Nat) (rows : List ImportRow)
    (customers : List Customer) : List Customer :=
  customers ++ mapWithIndex (fun i r => importRowToCustomer now i r) 0 rows

/-! ## Persistence and load-time migration -/

/-- A customer record as it may appear in persisted JSON: the fields newer
code versions added (`profileName`, `note`, `accountType`) and the legacy
`contact` field may be absent. -/
structure StoredCustomer where
  id : String
  customerName : String
  profileName : Option String
  startDate : CivilDate
  monthsPaid : Nat
  amount : Int
  note : Option String
  contact : Option String
  netflixEmail : String
  accountType : Option AccountType
deriving DecidableEq, Repr

/-- The load-time migration applied to each parsed record (src/App.tsx lines
22-31): backfill `profileName`, migrate `note: c.note || c.contact || ''`,
default `accountType`, drop `contact`. -/
def migrateCustomer (c : StoredCustomer) : Customer :=
  { id := c.id, customerName := c.customerName
    profileName := jsOrStr c.profileName ""
    startDate := c.startDate, monthsPaid := c.monthsPaid, amount := c.amount
    note := jsOrStr c.note (jsOrStr c.contact "")
    netflixEmail := c.netflixEmail
    accountType := c.accountType.getD AccountType.Share }

/-- `JSON.stringify` of a current customer record: every field present,
no `contact`. -/
def storeCustomer (c : Customer) : StoredCustomer :=
  { id := c.id, customerName := c.customerName, profileName := some c.profileName
    startDate := c.startDate, monthsPaid := c.monthsPaid, amount := c.amount
    note := some c.note, contact := none, netflixEmail := c.netflixEmail
    accountType := some c.accountType }

def defaultEmails : List String := ["netflix1@gmail.com", "netflix2@gmail.com"]

/-- The `customers` initializer (src/App.tsx lines 17-38): `none` = no saved
value, `Except.error` = `JSON.parse` threw (caught and logged), `Except.ok` =
parsed record list, migrated field by field. -/
def loadCustomers (stored : Option (Except Unit (List StoredCustomer))) :
    List Customer :=
  match stored with
  | none => []
  | some (Except.error _) => []
  | some (Except.ok l) => l.map migrateCustomer

/-- The `netflixEmails` initializer (src/App.tsx lines 41-50). -/
def loadEmails (stored : Option (Except Unit (List String))) : List String :=
  match stored with
  | none => defaultEmails
  | some (Except.error _) => defaultEmails
  | some (Except.ok l) => l

/-! ## Spec-side definition for the expiry-date claim -/

def validCivil (dt : CivilDate) : Prop :=
  1 ≤ dt.month ∧ dt.month ≤ 12 ∧ 1 ≤ dt.day ∧ dt.day ≤ monthLength dt.year dt.month

instance (dt : CivilDate) : Decidable (validCivil dt) := by
  unfold validCivil; infer_instance

def civilToDays (dt : CivilDate) : Int := daysFromCivil dt.year dt.month dt.day

/-- The spec's description of the expiry date ("startDate shifted forward by
monthsPaid calendar months, with month-overflow normalization"): advance the
month index, and if the day exceeds the target month's length roll the excess
into the following month. -/
def addMonthsSpec (dt : CivilDate) (n : Nat) : CivilDate :=
  let t := dt.month - 1 + n
  let y2 : Int := dt.year + (t / 12 : Nat)
  let m2 := t % 12 + 1
  if dt.day ≤ monthLength y2 m2 then ⟨y2, m2, dt.day⟩
  else if m2 = 12 then ⟨y2 + 1, 1, dt.day - monthLength y2 m2⟩
  else ⟨y2, m2 + 1, dt.day - monthLength y2 m2⟩

/-! ## Filter predicates and concrete sample data -/

/-- Whether a processed row passes the status dropdown (`none` = 'All'). -/
def statusPass (fs : Option SubscriptionStatus) (p : Customer × SubDetails) : Bool :=
  match fs with
  | none => true
  | some s => p.2.status == s

/-- Whether a processed row passes the email dropdown (`none` = 'All'). -/
def emailPass (fe : Option String) (p : Customer × SubDetails) : Bool :=
  match fe with
  | none => true
  | some e => p.1.netflixEmail == e

/-- A concrete customer used to instantiate hypotheses of general theorems. -/
def cJan : Customer :=
  { id := "1", customerName := "a", profileName := "", startDate := ⟨2024, 1, 15⟩
    monthsPaid := 2, amount := 8500, note := "", netflixEmail := "netflix1@gmail.com"
    accountType := AccountType.Share }

/-- The spec's own overflow example: a start date of January 31. -/
def cJan31 : Customer :=
  { id := "2", customerName := "b", profileName := "", startDate := ⟨2023, 1, 31⟩
    monthsPaid := 1, amount := 8500, note := "", netflixEmail := "netflix1@gmail.com"
    accountType := AccountType.Share }

def draftA : CustomerDraft :=
  { customerName := "a", profileName := "", startDate := ⟨2024, 1, 15⟩
    monthsPaid := 1, amount := 8500, note := "", netflixEmail := "netflix1@gmail.com"
    accountType := AccountType.Share }

def draftB : CustomerDraft :=
  { draftA with customerName := "b" }

def rowA : ImportRow :=
  { customerName := "r", profileName := none, startDate := ⟨2024, 2, 1⟩
    monthsPaid := 1, amount := none, note := none, netflixEmail := none
    accountType := none }

example : daysFromCivil 1970 1 1 = 0 := by decide
example : daysFromCivil 2024 3 15 = jsMakeDay 2024 2 15 := by decide
example : jsMakeDay 2023 1 31 = daysFromCivil 2023 3 3 := by decide
example : jsMakeDay 2024 1 31 = daysFromCivil 2024 3 2 := by decide

/-! ## Calendar lemmas -/

theorem monthLength_bounds (y : Int) (m : Nat) (h1 : 1 ≤ m) (h2 : m ≤ 12) :
    28 ≤ monthLength y m ∧ monthLength y m ≤ 31 := by
  interval_cases m <;> cases hly : isLeap y <;> simp_all [monthLength]

theorem daysBeforeYear_succ (y : Int) :
    daysBeforeYear (y + 1) =
      daysBeforeYear y + 365 + (if isLeap y then 1 else 0) := by
  split_ifs with hl
  · unfold isLeap at hl
    simp only [Bool.and_eq_true, beq_iff_eq, Bool.or_eq_true, bne_iff_ne,
      ne_eq] at hl
    unfold daysBeforeYear leapCount
    rcases hl with ⟨h4, h100 | h400⟩ <;> omega
  · unfold isLeap at hl
    simp only [Bool.and_eq_true, beq_iff_eq, Bool.or_eq_true, bne_iff_ne,
      ne_eq, not_and, not_or, not_not] at hl
    unfold daysBeforeYear leapCount
    by_cases h4 : y % 4 = 0
    · rcases hl h4 with ⟨h100, h400⟩
      omega
    · omega

theorem daysFromCivil_day (y : Int) (m : Nat) (d : Int) :
    daysFromCivil y m d = daysFromCivil y m 1 + (d - 1) := by
  unfold daysFromCivil; ring

theorem daysFromCivil_next (y : Int) (m : Nat) (h1 : 1 ≤ m) (h2 : m ≤ 12) :
    daysFromCivil y m 1 + (monthLength y m : Int) =
      if m = 12 then daysFromCivil (y + 1) 1 1 else daysFromCivil y (m + 1) 1 := by
  have hsucc := daysBeforeYear_succ y
  interval_cases m <;>
    cases hly : isLeap y <;>
    simp [daysFromCivil, daysInMonthsBefore, monthLength, epochOffset, hly] at hsucc ⊢ <;>
    omega

theorem jsMakeDay_ofNat (y : Int) (t : Nat) (d : Int) :
    jsMakeDay y (t : Int) d = daysFromCivil (y + ((t / 12 : Nat) : Int)) (t % 12 + 1) d := by
  unfold jsMakeDay normYear normMonth
  have h1 : ((t : Int) / 12) = ((t / 12 : Nat) : Int) := by omega
  have h2 : ((t : Int) % 12).toNat = t % 12 := by omega
  rw [h1, h2]

theorem addMonths_eq (y : Int) (m d n : Nat) (hm1 : 1 ≤ m) (hm2 : m ≤ 12)
    (hd1 : 1 ≤ d) (hd2 : d ≤ monthLength y m) :
    jsMakeDay y ((m : Int) - 1 + n) d = civilToDays (addMonthsSpec ⟨y, m, d⟩ n)
      ∧ validCivil (addMonthsSpec ⟨y, m, d⟩ n) := by
  have hcast : ((m : Int) - 1 + n) = ((m - 1 + n : Nat) : Int) := by omega
  rw [hcast, jsMakeDay_ofNat]
  have hd31 : d ≤ 31 := le_trans hd2 (monthLength_bounds y m hm1 hm2).2
  have hm2r1 : 1 ≤ (m - 1 + n) % 12 + 1 := by omega
  have hm2r2 : (m - 1 + n) % 12 + 1 ≤ 12 := by omega
  simp only [addMonthsSpec, civilToDays, validCivil]
  split_ifs with hfit h12 <;> dsimp only
  · exact ⟨rfl, hm2r1, hm2r2, hd1, hfit⟩
  · -- overflow out of December: roll into January of the next year
    have hnext := daysFromCivil_next (y + ((m - 1 + n) / 12 : Nat))
      ((m - 1 + n) % 12 + 1) hm2r1 hm2r2
    rw [if_pos h12] at hnext
    rw [h12] at hnext hfit ⊢
    have hlb := monthLength_bounds (y + ((m - 1 + n) / 12 : Nat)) 12
      (by omega) (by omega)
    have hlb1 := monthLength_bounds (y + ((m - 1 + n) / 12 : Nat) + 1) 1
      (by omega) (by omega)
    refine ⟨?_, by omega, by omega, by omega, by omega⟩
    rw [daysFromCivil_day _ 12 (d : Int), daysFromCivil_day _ 1]
    omega
  · -- overflow inside the year: roll into the following month
    have hnext := daysFromCivil_next (y + ((m - 1 + n) / 12 : Nat))
      ((m - 1 + n) % 12 + 1) hm2r1 hm2r2
    rw [if_neg h12] at hnext
    have hlb := monthLength_bounds (y + ((m - 1 + n) / 12 : Nat))
      ((m - 1 + n) % 12 + 1) hm2r1 hm2r2
    have hlb1 := monthLength_bounds (y + ((m - 1 + n) / 12 : Nat))
      ((m - 1 + n) % 12 + 1 + 1) (by omega) (by omega)
    refine ⟨?_, by omega, by omega, by omega, by omega⟩
    rw [daysFromCivil_day _ ((m - 1 + n) % 12 + 1) (d : Int),
      daysFromCivil_day _ ((m - 1 + n) % 12 + 1 + 1)]
    omega

theorem jsCeilDiv_mul (k b : Int) (hb : b ≠ 0) : jsCeilDiv (k * b) b = k := by
  unfold jsCeilDiv
  rw [← neg_mul, Int.mul_ediv_cancel _ hb, neg_neg]

theorem daysLeft_eq (todayDays : Int) (c : Customer) :
    (calculateSubscriptionDetails todayDays c).daysLeft =
      customerExpiryDays c - todayDays := by
  unfold calculateSubscriptionDetails
  dsimp only
  rw [show customerExpiryDays c * msPerDay - todayDays * msPerDay
        = (customerExpiryDays c - todayDays) * msPerDay by ring]
  exact jsCeilDiv_mul _ _ (by decide)

theorem calc_status_eq (todayDays : Int) (c : Customer) :
    (calculateSubscriptionDetails todayDays c).status =
      (if (calculateSubscriptionDetails todayDays c).daysLeft ≤ 0 then
        SubscriptionStatus.Expired
      else if (calculateSubscriptionDetails todayDays c).daysLeft ≤ 7 then
        SubscriptionStatus.ExpiringSoon
      else SubscriptionStatus.Active) := rfl

/-- C1: the computed status is a pure function of (startDate, monthsPaid,
today); `daysLeft ≤ 0` yields Expired, `1 ≤ daysLeft ≤ 7` yields ExpiringSoon,
and `daysLeft > 7` yields Active. -/
theorem C1_status_thresholds (todayDays : Int) (c : Customer) :
    ((calculateSubscriptionDetails todayDays c).daysLeft ≤ 0 →
      (calculateSubscriptionDetails todayDays c).status = SubscriptionStatus.Expired)
    ∧ (1 ≤ (calculateSubscriptionDetails todayDays c).daysLeft →
      (calculateSubscriptionDetails todayDays c).daysLeft ≤ 7 →
      (calculateSubscriptionDetails todayDays c).status = SubscriptionStatus.ExpiringSoon)
    ∧ (7 < (calculateSubscriptionDetails todayDays c).daysLeft →
      (calculateSubscriptionDetails todayDays c).status = SubscriptionStatus.Active)
    ∧ (∀ c2 : Customer, c2.startDate = c.startDate → c2.monthsPaid = c.monthsPaid →
      calculateSubscriptionDetails todayDays c2 = calculateSubscriptionDetails todayDays c) := by
  refine ⟨?_, ?_, ?_, ?_⟩
  · intro h
    rw [calc_status_eq, if_pos h]
  · intro h1 h7
    rw [calc_status_eq, if_neg (by omega), if_pos h7]
  · intro h
    rw [calc_status_eq, if_neg (by omega), if_neg (by omega)]
  · intro c2 hs hm
    unfold calculateSubscriptionDetails customerExpiryDays
    rw [hs, hm]

theorem C1_status_thresholds_witness :
    (calculateSubscriptionDetails (customerExpiryDays cJan) cJan).status
        = SubscriptionStatus.Expired
    ∧ (calculateSubscriptionDetails (customerExpiryDays cJan - 5) cJan).status
        = SubscriptionStatus.ExpiringSoon
    ∧ (calculateSubscriptionDetails (customerExpiryDays cJan - 10) cJan).status
        = SubscriptionStatus.Active :=
  ⟨(C1_status_thresholds (customerExpiryDays cJan) cJan).1 (by decide),
   (C1_status_thresholds (customerExpiryDays cJan - 5) cJan).2.1 (by decide) (by decide),
   (C1_status_thresholds (customerExpiryDays cJan - 10) cJan).2.2.1 (by decide)⟩

/-- C2: the computed expiryDate is startDate shifted forward by monthsPaid
calendar months with month-overflow normalization, recomputed from startDate
and monthsPaid alone (the `Customer` record stores no expiry field). -/
theorem C2_expiry_addMonths (todayDays : Int) (c : Customer)
    (h : validCivil c.startDate) :
    (calculateSubscriptionDetails todayDays c).expiryDays
        = civilToDays (addMonthsSpec c.startDate c.monthsPaid)
    ∧ validCivil (addMonthsSpec c.startDate c.monthsPaid)
    ∧ (∀ c2 : Customer, c2.startDate = c.startDate → c2.monthsPaid = c.monthsPaid →
      (calculateSubscriptionDetails todayDays c2).expiryDays
        = (calculateSubscriptionDetails todayDays c).expiryDays) := by
  obtain ⟨h1, h2, h3, h4⟩ := h
  have key := addMonths_eq c.startDate.year c.startDate.month c.startDate.day
    c.monthsPaid h1 h2 h3 h4
  refine ⟨key.1, key.2, ?_⟩
  intro c2 hs hm
  show customerExpiryDays c2 = customerExpiryDays c
  unfold customerExpiryDays
  rw [hs, hm]

theorem C2_expiry_addMonths_witness :
    (calculateSubscriptionDetails 0 cJan31).expiryDays
        = civilToDays (addMonthsSpec cJan31.startDate cJan31.monthsPaid)
    ∧ validCivil (addMonthsSpec cJan31.startDate cJan31.monthsPaid)
    ∧ (∀ c2 : Customer, c2.startDate = cJan31.startDate →
      c2.monthsPaid = cJan31.monthsPaid →
      (calculateSubscriptionDetails 0 c2).expiryDays
        = (calculateSubscriptionDetails 0 cJan31).expiryDays) :=
  C2_expiry_addMonths 0 cJan31 (by decide)

/-! ## Decimal numeral lemmas -/

theorem decCharsAux_congr : ∀ f1 f2 n : Nat, n < f1 → n < f2 →
    decCharsAux f1 n = decCharsAux f2 n := by
  intro f1
  induction f1 with
  | zero => intro f2 n h1 h2; omega
  | succ f ih =>
    intro f2 n h1 h2
    cases f2 with
    | zero => omega
    | succ g =>
      show (if n < 10 then [digitChar n]
            else decCharsAux f (n / 10) ++ [digitChar (n % 10)])
        = (if n < 10 then [digitChar n]
            else decCharsAux g (n / 10) ++ [digitChar (n % 10)])
      by_cases h : n < 10
      · rw [if_pos h, if_pos h]
      · rw [if_neg h, if_neg h, ih g (n / 10) (by omega) (by omega)]

theorem decChars_small (n : Nat) (h : n < 10) : decChars n = [digitChar n] := by
  show (if n < 10 then [digitChar n]
        else decCharsAux n (n / 10) ++ [digitChar (n % 10)]) = _
  rw [if_pos h]

theorem decChars_rec (n : Nat) (h : 10 ≤ n) :
    decChars n = decChars (n / 10) ++ [digitChar (n % 10)] := by
  have h1 : decChars n = decCharsAux n (n / 10) ++ [digitChar (n % 10)] := by
    show (if n < 10 then [digitChar n]
          else decCharsAux n (n / 10) ++ [digitChar (n % 10)]) = _
    rw [if_neg (by omega)]
  rw [h1]
  have h2 : decCharsAux n (n / 10) = decChars (n / 10) :=
    decCharsAux_congr n (n / 10 + 1) (n / 10) (by omega) (by omega)
  rw [h2]

theorem decChars_ne_nil (n : Nat) : decChars n ≠ [] := by
  by_cases h : n < 10
  · rw [decChars_small n h]; simp
  · rw [decChars_rec n (by omega)]; simp

theorem digitChar_inj (d e : Nat) (hd : d < 10) (he : e < 10)
    (h : digitChar d = digitChar e) : d = e := by
  interval_cases d <;> interval_cases e <;>
    first
      | rfl
      | exact absurd h (by decide)

theorem decChars_inj : ∀ n m : Nat, decChars n = decChars m → n = m := by
  intro n
  induction n using Nat.strong_induction_on with
  | _ n ih =>
    intro m h
    by_cases hn : n < 10 <;> by_cases hm : m < 10
    · rw [decChars_small n hn, decChars_small m hm] at h
      simp only [List.cons.injEq, and_true] at h
      exact digitChar_inj n m hn hm h
    · rw [decChars_small n hn, decChars_rec m (by omega)] at h
      have hl := congrArg List.length h
      have hpos : 0 < (decChars (m / 10)).length :=
        List.length_pos.mpr (decChars_ne_nil _)
      simp only [List.length_cons, List.length_append,
        List.length_singleton, List.length_nil] at hl
      omega
    · rw [decChars_rec n (by omega), decChars_small m hm] at h
      have hl := congrArg List.length h
      have hpos : 0 < (decChars (n / 10)).length :=
        List.length_pos.mpr (decChars_ne_nil _)
      simp only [List.length_cons, List.length_append,
        List.length_singleton, List.length_nil] at hl
      omega
    · rw [decChars_rec n (by omega), decChars_rec m (by omega)] at h
      obtain ⟨h1, h2⟩ := List.append_inj' h rfl
      have hdiv : n / 10 = m / 10 := ih (n / 10) (by omega) (m / 10) h1
      have hmod : n % 10 = m % 10 := by
        simp only [List.cons.injEq, and_true] at h2
        exact digitChar_inj _ _ (by omega) (by omega) h2
      omega

theorem natDecStr_inj (n m : Nat) (h : natDecStr n = natDecStr m) : n = m := by
  unfold natDecStr at h
  have hd : decChars n = decChars m := by injection h
  exact decChars_inj n m hd

theorem importId_inj (now i j : Nat) (h : importId now i = importId now j) :
    i = j := by
  unfold importId at h
  have hd := congrArg String.data h
  rw [String.data_append, String.data_append,
    String.data_append, String.data_append] at hd
  have hc : (natDecStr i).data = (natDecStr j).data :=
    List.append_cancel_left hd
  exact natDecStr_inj i j (by
    unfold natDecStr at hd ⊢
    exact congrArg String.mk (by
      have : decChars i = decChars j := hc
      rw [this]))

/-! ## Monthly aggregation lemmas -/

theorem history_foldl (y : Int) (m0 : Nat) :
    ∀ (cs : List Customer) (a : Nat) (b : Int),
      cs.foldl (fun acc c =>
          if countedInMonth y m0 c then (acc.1 + 1, acc.2 + priceOf c) else acc) (a, b)
        = (a + (cs.filter fun c => decide (countedInMonth y m0 c)).length,
           b + ((cs.filter fun c => decide (countedInMonth y m0 c)).map priceOf).sum) := by
  intro cs
  induction cs with
  | nil => intro a b; simp
  | cons c cs ih =>
    intro a b
    by_cases h : countedInMonth y m0 c
    · rw [List.foldl_cons, if_pos h, ih]
      simp only [List.filter_cons, decide_eq_true h, if_pos, List.length_cons,
        List.map_cons, List.sum_cons, Prod.mk.injEq]
      constructor
      · omega
      · ring
    · rw [List.foldl_cons, if_neg h, ih]
      simp only [List.filter_cons, decide_eq_false h, Bool.false_eq_true,
        if_neg, if_false]

theorem monthlyRecord_counts (cs : List Customer) (y : Int) (m0 : Nat) :
    (monthlyRecord cs y m0).activeUsers
        = (cs.filter fun c => decide (countedInMonth y m0 c)).length
    ∧ (monthlyRecord cs y m0).totalIncome
        = ((cs.filter fun c => decide (countedInMonth y m0 c)).map priceOf).sum := by
  unfold monthlyRecord
  rw [history_foldl y m0 cs 0 0]
  constructor <;> simp

/-- C3 counterexample: take today in March 2024 and the single customer with
startDate 2024-01-15 and monthsPaid 2 (so expiryDate 2024-03-15).  The claim
says this customer is not counted in the March record, but the March 2024
record (the last of the 12-month window) counts it: activeUsers = 1. -/
theorem C3_history_march_counterexample :
    ((historyData [cJan] 2024 2).get? 11).map (fun r => (r.month, r.activeUsers))
      = some ("2024-03", 1) := by decide

/-- C3 (amended): a customer is counted active in a month exactly when
startDate ≤ monthEnd and expiryDate > monthStart; consequently the customer
with startDate 2024-01-15 and monthsPaid 2 (expiryDate 2024-03-15) is counted
active in the January, February **and** March records (March because
2024-03-15 > 2024-03-01), and not in the December 2023 record. -/
theorem C3_history_overlap :
    (∀ (cs : List Customer) (y : Int) (m0 : Nat),
      (monthlyRecord cs y m0).activeUsers
          = (cs.filter fun c => decide (countedInMonth y m0 c)).length
      ∧ ∀ c : Customer, countedInMonth y m0 c ↔
          (startDays c ≤ jsMakeDay y ((m0 : Int) + 1) 0
            ∧ jsMakeDay y (m0 : Int) 1 < customerExpiryDays c))
    ∧ ((historyData [cJan] 2024 2).get? 8).map (fun r => (r.month, r.activeUsers))
        = some ("2023-12", 0)
    ∧ ((historyData [cJan] 2024 2).get? 9).map (fun r => (r.month, r.activeUsers))
        = some ("2024-01", 1)
    ∧ ((historyData [cJan] 2024 2).get? 10).map (fun r => (r.month, r.activeUsers))
        = some ("2024-02", 1)
    ∧ ((historyData [cJan] 2024 2).get? 11).map (fun r => (r.month, r.activeUsers))
        = some ("2024-03", 1) := by
  refine ⟨?_, by decide, by decide, by decide, by decide⟩
  intro cs y m0
  exact ⟨(monthlyRecord_counts cs y m0).1, fun c => Iff.rfl⟩

/-! ## Delete, update, filter claims -/

/-- C4 counterexample: confirming deletion of id "b" on the one-customer list
[cJan] (whose only id is "1") leaves the list unchanged: the confirmed delete
removed zero records, not exactly one. -/
theorem C4_delete_counterexample :
    handleDeleteCustomer true "b" [cJan] = [cJan]
    ∧ (handleDeleteCustomer true "b" [cJan]).length ≠ [cJan].length - 1 := by
  exact ⟨by decide, by decide⟩

/-- C4 (amended): an unconfirmed delete leaves the list unchanged; a confirmed
delete removes exactly the records carrying the given id — in particular, when
exactly one record carries the id, precisely that record is removed and all
other records are untouched, in order. -/
theorem C4_delete_exact (id : String) (cs : List Customer) :
    handleDeleteCustomer false id cs = cs
    ∧ handleDeleteCustomer true id cs = cs.filter (fun c => c.id != id)
    ∧ (∀ pre c post, cs = pre ++ c :: post → c.id = id →
        (∀ c2 ∈ pre, c2.id ≠ id) → (∀ c2 ∈ post, c2.id ≠ id) →
        handleDeleteCustomer true id cs = pre ++ post) := by
  refine ⟨rfl, rfl, ?_⟩
  intro pre c post hsplit hc hpre hpost
  show (if true = true then cs.filter (fun c => c.id != id) else cs) = pre ++ post
  rw [if_pos rfl, hsplit, List.filter_append, List.filter_cons]
  have hcid : (c.id != id) = false := by simp [hc]
  rw [hcid]
  have h1 : pre.filter (fun c2 => c2.id != id) = pre :=
    List.filter_eq_self.mpr fun a ha => by simp [hpre a ha]
  have h2 : post.filter (fun c2 => c2.id != id) = post :=
    List.filter_eq_self.mpr fun a ha => by simp [hpost a ha]
  rw [h1, h2]
  simp

theorem C4_delete_exact_witness :
    handleDeleteCustomer false "1" [cJan] = [cJan]
    ∧ handleDeleteCustomer true "1" [cJan] = [] := by
  refine ⟨(C4_delete_exact "1" [cJan]).1, ?_⟩
  have h := (C4_delete_exact "1" [cJan]).2.2 [] cJan [] rfl rfl
    (by intro c2 hc2; cases hc2) (by intro c2 hc2; cases hc2)
  simpa using h

theorem updateCustomer_map_eq (data : Customer) (cs : List Customer) :
    updateCustomer data cs
      = cs.map fun c => if c.id = data.id then data else c := by
  unfold updateCustomer
  apply List.map_congr_left
  intro c _
  by_cases h : c.id = data.id <;> simp [h]

/-- C10: update preserves the list's length and every position: entries whose
id differs from the payload's id are unchanged, entries at matching positions
are replaced by the payload, and a list containing no matching id is left
entirely unchanged. -/
theorem C10_update_frame (data : Customer) (cs : List Customer) :
    (updateCustomer data cs).length = cs.length
    ∧ (∀ i : Nat, (updateCustomer data cs)[i]?
        = cs[i]?.map fun c => if c.id = data.id then data else c)
    ∧ ((∀ c ∈ cs, c.id ≠ data.id) → updateCustomer data cs = cs) := by
  refine ⟨?_, ?_, ?_⟩
  · rw [updateCustomer_map_eq]; exact List.length_map _ _
  · intro i
    rw [updateCustomer_map_eq]
    exact List.getElem?_map _ _ _
  · intro h
    rw [updateCustomer_map_eq]
    have : cs.map (fun c => if c.id = data.id then data else c) = cs.map id :=
      List.map_congr_left fun a ha => by simp [h a ha]
    rw [this, List.map_id]

theorem C10_update_frame_witness :
    (updateCustomer cJan31 [cJan]).length = 1
    ∧ updateCustomer cJan31 [cJan] = [cJan] := by
  refine ⟨(C10_update_frame cJan31 [cJan]).1, ?_⟩
  exact (C10_update_frame cJan31 [cJan]).2.2 (by decide)

theorem mem_filterCustomers (fs : Option SubscriptionStatus) (fe : Option String)
    (l : List (Customer × SubDetails)) (p : Customer × SubDetails) :
    p ∈ filterCustomers fs fe l
      ↔ (p ∈ l ∧ statusPass fs p = true ∧ emailPass fe p = true) := by
  unfold filterCustomers statusPass emailPass
  cases fs <;> cases fe <;> (simp [List.mem_filter, and_assoc]; try tauto)

/-- C5: with both dropdowns on 'All' the filter stage returns the full
processed list; a specific status filter returns exactly the subset whose
computed status equals it; and the two filters are conjunctive: a row appears
in the displayed (filtered then sorted) view exactly when it passes both
predicates. -/
theorem C5_filtering {β : Type} [LinearOrder β] (todayDays : Int)
    (cs : List Customer) (st : SubscriptionStatus)
    (fs : Option SubscriptionStatus) (fe : Option String)
    (key : Customer × SubDetails → β) (dir : SortDirection) :
    filterCustomers none none (processCustomers todayDays cs)
        = processCustomers todayDays cs
    ∧ filterCustomers (some st) none (processCustomers todayDays cs)
        = ((processCustomers todayDays cs).filter fun p => p.2.status == st)
    ∧ (∀ p, p ∈ displayCustomers todayDays fs fe key dir cs ↔
        (p ∈ processCustomers todayDays cs
          ∧ statusPass fs p = true ∧ emailPass fe p = true)) := by
  refine ⟨rfl, rfl, ?_⟩
  intro p
  unfold displayCustomers jsSortBy
  rw [(List.perm_insertionSort _ _).mem_iff]
  exact mem_filterCustomers fs fe _ p

/-! ## Sorting lemmas -/

theorem dirCompare_asc_iff {β : Type} [LinearOrder β]
    (key : Customer × SubDetails → β) (a b : Customer × SubDetails) :
    dirCompare key SortDirection.ascending a b ≤ 0 ↔ key a ≤ key b := by
  unfold dirCompare jsCompare
  split_ifs with h1 h2
  · exact iff_of_false (by decide) (not_le.mpr h1)
  · exact iff_of_true (by decide) (le_of_lt h2)
  · exact iff_of_true (by decide) (not_lt.mp h1)

theorem dirCompare_desc_iff {β : Type} [LinearOrder β]
    (key : Customer × SubDetails → β) (a b : Customer × SubDetails) :
    dirCompare key SortDirection.descending a b ≤ 0 ↔ key b ≤ key a := by
  unfold dirCompare jsCompare
  split_ifs with h1 h2
  · exact iff_of_true (by decide) (le_of_lt h1)
  · exact iff_of_false (by decide) (not_le.mpr h2)
  · exact iff_of_true (by decide) (not_lt.mp h2)

theorem jsSortBy_perm {β : Type} [LinearOrder β]
    (key : Customer × SubDetails → β) (dir : SortDirection)
    (l : List (Customer × SubDetails)) :
    List.Perm (jsSortBy key dir l) l :=
  List.perm_insertionSort _ l

theorem jsSortBy_sorted_asc {β : Type} [LinearOrder β]
    (key : Customer × SubDetails → β) (l : List (Customer × SubDetails)) :
    List.Sorted (fun a b => key a ≤ key b)
      (jsSortBy key SortDirection.ascending l) := by
  unfold jsSortBy
  haveI : IsTotal (Customer × SubDetails)
      (fun a b => dirCompare key SortDirection.ascending a b ≤ 0) :=
    ⟨fun a b => by
      rcases le_total (key a) (key b) with h | h
      · exact Or.inl ((dirCompare_asc_iff key a b).mpr h)
      · exact Or.inr ((dirCompare_asc_iff key b a).mpr h)⟩
  haveI : IsTrans (Customer × SubDetails)
      (fun a b => dirCompare key SortDirection.ascending a b ≤ 0) :=
    ⟨fun a b c hab hbc => (dirCompare_asc_iff key a c).mpr
      (le_trans ((dirCompare_asc_iff key a b).mp hab)
        ((dirCompare_asc_iff key b c).mp hbc))⟩
  have hs := List.sorted_insertionSort
    (fun a b => dirCompare key SortDirection.ascending a b ≤ 0) l
  exact hs.imp fun h => (dirCompare_asc_iff key _ _).mp h

theorem jsSortBy_sorted_desc {β : Type} [LinearOrder β]
    (key : Customer × SubDetails → β) (l : List (Customer × SubDetails)) :
    List.Sorted (fun a b => key b ≤ key a)
      (jsSortBy key SortDirection.descending l) := by
  unfold jsSortBy
  haveI : IsTotal (Customer × SubDetails)
      (fun a b => dirCompare key SortDirection.descending a b ≤ 0) :=
    ⟨fun a b => by
      rcases le_total (key b) (key a) with h | h
      · exact Or.inl ((dirCompare_desc_iff key a b).mpr h)
      · exact Or.inr ((dirCompare_desc_iff key b a).mpr h)⟩
  haveI : IsTrans (Customer × SubDetails)
      (fun a b => dirCompare key SortDirection.descending a b ≤ 0) :=
    ⟨fun a b c hab hbc => (dirCompare_desc_iff key a c).mpr
      (le_trans ((dirCompare_desc_iff key b c).mp hbc)
        ((dirCompare_desc_iff key a b).mp hab))⟩
  have hs := List.sorted_insertionSort
    (fun a b => dirCompare key SortDirection.descending a b ≤ 0) l
  exact hs.imp fun h => (dirCompare_desc_iff key _ _).mp h

theorem sort_desc_reverse {β : Type} [LinearOrder β]
    (key : Customer × SubDetails → β) (l : List (Customer × SubDetails))
    (hdist : l.Pairwise fun a b => key a ≠ key b) :
    jsSortBy key SortDirection.descending l
      = (jsSortBy key SortDirection.ascending l).reverse := by
  have hdistAsc : (jsSortBy key SortDirection.ascending l).Pairwise
      (fun a b => key a ≠ key b) :=
    ((jsSortBy_perm key SortDirection.ascending l).pairwise_iff
      fun h => Ne.symm h).mpr hdist
  have hdistDesc : (jsSortBy key SortDirection.descending l).Pairwise
      (fun a b => key a ≠ key b) :=
    ((jsSortBy_perm key SortDirection.descending l).pairwise_iff
      fun h => Ne.symm h).mpr hdist
  have hAscStrict : (jsSortBy key SortDirection.ascending l).Pairwise
      (fun a b => key a < key b) :=
    (List.Pairwise.and (jsSortBy_sorted_asc key l) hdistAsc).imp
      fun h => lt_of_le_of_ne h.1 h.2
  have hDescStrict : (jsSortBy key SortDirection.descending l).Pairwise
      (fun a b => key b < key a) :=
    (List.Pairwise.and (jsSortBy_sorted_desc key l) hdistDesc).imp
      fun h => lt_of_le_of_ne h.1 (Ne.symm h.2)
  have hRevStrict : (jsSortBy key SortDirection.ascending l).reverse.Pairwise
      (fun a b => key b < key a) :=
    List.pairwise_reverse.mpr hAscStrict
  have hperm : List.Perm (jsSortBy key SortDirection.descending l)
      (jsSortBy key SortDirection.ascending l).reverse :=
    ((jsSortBy_perm key SortDirection.descending l).trans
      (jsSortBy_perm key SortDirection.ascending l).symm).trans
      (List.reverse_perm _).symm
  haveI : IsAntisymm (Customer × SubDetails) (fun a b => key b < key a) :=
    ⟨fun a b h1 h2 => absurd h2 (lt_asymm h1)⟩
  exact List.eq_of_perm_of_sorted hperm hDescStrict hRevStrict

/-- C6: re-clicking the active ascending sort key toggles the direction to
descending, and with pairwise-distinct key values the descending sort is
exactly the reverse of the ascending sort; the ascending sort is totally
ordered by the key and is a permutation of its input (so the order is
deterministic); selecting a new key resets the direction to ascending. -/
theorem C6_sort_toggle_reverse {β : Type} [LinearOrder β]
    (key : Customer × SubDetails → β) (l : List (Customer × SubDetails))
    (hdist : l.Pairwise fun a b => key a ≠ key b) (k k2 : String)
    (dir : SortDirection) :
    handleSort ⟨k, SortDirection.ascending⟩ k = ⟨k, SortDirection.descending⟩
    ∧ (k2 ≠ k → handleSort ⟨k, dir⟩ k2 = ⟨k2, SortDirection.ascending⟩)
    ∧ jsSortBy key SortDirection.descending l
        = (jsSortBy key SortDirection.ascending l).reverse
    ∧ List.Sorted (fun a b => key a ≤ key b)
        (jsSortBy key SortDirection.ascending l)
    ∧ List.Perm (jsSortBy key SortDirection.ascending l) l := by
  refine ⟨?_, ?_, sort_desc_reverse key l hdist, jsSortBy_sorted_asc key l,
    jsSortBy_perm key SortDirection.ascending l⟩
  · unfold handleSort
    rw [if_pos ⟨rfl, rfl⟩]
  · intro hne
    unfold handleSort
    rw [if_neg]
    intro hcontra
    exact hne hcontra.1.symm

theorem C6_sort_toggle_reverse_witness :
    handleSort ⟨"expiryDate", SortDirection.ascending⟩ "expiryDate"
        = ⟨"expiryDate", SortDirection.descending⟩
    ∧ handleSort ⟨"expiryDate", SortDirection.ascending⟩ "amount"
        = ⟨"amount", SortDirection.ascending⟩
    ∧ jsSortBy (fun p => p.1.customerName) SortDirection.descending
          (processCustomers 0 [cJan, cJan31])
        = (jsSortBy (fun p => p.1.customerName) SortDirection.ascending
          (processCustomers 0 [cJan, cJan31])).reverse := by
  have h := C6_sort_toggle_reverse (fun p => p.1.customerName)
    (processCustomers 0 [cJan, cJan31]) (by decide) "expiryDate" "amount"
    SortDirection.ascending
  exact ⟨h.1, h.2.1 (by decide), h.2.2.1⟩

/-! ## Persistence claims -/

theorem migrate_store (c : Customer) : migrateCustomer (storeCustomer c) = c := by
  unfold migrateCustomer storeCustomer jsOrStr
  dsimp only
  have hp : (if c.profileName = "" then "" else c.profileName) = c.profileName := by
    split_ifs with h
    · exact h.symm
    · rfl
  have hn : (if c.note = "" then "" else c.note) = c.note := by
    split_ifs with h
    · exact h.symm
    · rfl
  rw [hp, hn]
  rfl

/-- C7: saving the customer list and the email pool to persisted state and
loading them back (applying the load-time migration) reproduces the same
records, and the migration's field defaulting is idempotent: migrating an
already-migrated record changes nothing. -/
theorem C7_persistence_roundtrip (cs : List Customer) (es : List String)
    (s : StoredCustomer) :
    loadCustomers (some (Except.ok (cs.map storeCustomer))) = cs
    ∧ loadEmails (some (Except.ok es)) = es
    ∧ migrateCustomer (storeCustomer (migrateCustomer s)) = migrateCustomer s := by
  refine ⟨?_, rfl, migrate_store (migrateCustomer s)⟩
  show (cs.map storeCustomer).map migrateCustomer = cs
  rw [List.map_map]
  have h : migrateCustomer ∘ storeCustomer = id := funext fun c => migrate_store c
  rw [h, List.map_id]

/-- C8: malformed persisted state never fails fatally: a caught parse error
(and likewise an absent key) yields the empty customer list and the default
pair of emails. -/
theorem C8_malformed_fallback (e : Unit) :
    loadCustomers (some (Except.error e)) = []
    ∧ loadEmails (some (Except.error e)) = defaultEmails
    ∧ loadCustomers none = []
    ∧ loadEmails none = defaultEmails :=
  ⟨rfl, rfl, rfl, rfl⟩

/-! ## Id generation claims -/

/-- C9 counterexample: two create operations in the same millisecond derive
the same id from the timestamp, so the second create yields a list whose ids
are not unique — uniqueness is not unconditional. -/
theorem C9_create_id_counterexample :
    ¬ ((createCustomer 5 draftB (createCustomer 5 draftA [])).map
        fun c => c.id).Nodup := by decide

theorem mapWithIndex_mem {α β : Type} (f : Nat → α → β) :
    ∀ (k : Nat) (rs : List α) (x : β), x ∈ mapWithIndex f k rs →
      ∃ i r, k ≤ i ∧ i < k + rs.length ∧ f i r = x := by
  intro k rs
  induction rs generalizing k with
  | nil => intro x hx; cases hx
  | cons r rs ih =>
    intro x hx
    cases hx with
    | head => exact ⟨k, r, le_refl k, by simp, rfl⟩
    | tail _ h =>
      obtain ⟨i, r2, hi, hlt, he⟩ := ih (k + 1) x h
      exact ⟨i, r2, by omega, by simp only [List.length_cons]; omega, he⟩

theorem import_batch_ids_nodup (now : Nat) :
    ∀ (k : Nat) (rows : List ImportRow),
      ((mapWithIndex (fun i r => importRowToCustomer now i r) k rows).map
        fun c => c.id).Nodup := by
  intro k rows
  induction rows generalizing k with
  | nil => simp [mapWithIndex]
  | cons r rs ih =>
    show (List.map _ (importRowToCustomer now k r
      :: mapWithIndex _ (k + 1) rs)).Nodup
    rw [List.map_cons]
    rw [List.nodup_cons]
    refine ⟨?_, ih (k + 1)⟩
    intro hmem
    rw [List.mem_map] at hmem
    obtain ⟨c, hc, hid⟩ := hmem
    obtain ⟨i, r2, hi, _, he⟩ := mapWithIndex_mem _ (k + 1) rs c hc
    have hids : importId now i = importId now k := by
      rw [← he] at hid
      exact hid
    have := importId_inj now i k hids
    omega

/-- C9 (amended): create derives the id from the current timestamp and
appends the record, leaving existing records unchanged, and bulk import
derives timestamp-plus-index ids that are pairwise distinct within the batch;
provided the derived ids do not already occur in the list (fresh timestamps),
id uniqueness is preserved by create and by bulk import.  (Unconditional
uniqueness fails when a timestamp repeats, see the counterexample.) -/
theorem C9_create_import_ids (now : Nat) (d : CustomerDraft)
    (rows : List ImportRow) (cs : List Customer)
    (hnodup : (cs.map fun c => c.id).Nodup) :
    createCustomer now d cs = cs ++ [withId (natDecStr now) d]
    ∧ (createCustomer now d cs).take cs.length = cs
    ∧ (createCustomer now d cs).length = cs.length + 1
    ∧ (natDecStr now ∉ cs.map (fun c => c.id) →
        ((createCustomer now d cs).map fun c => c.id).Nodup)
    ∧ (importCustomers now rows cs).take cs.length = cs
    ∧ (importCustomers now rows cs).length = cs.length + rows.length
    ∧ ((mapWithIndex (fun i r => importRowToCustomer now i r) 0 rows).map
        fun c => c.id).Nodup
    ∧ ((∀ i, i < rows.length → importId now i ∉ cs.map fun c => c.id) →
        ((importCustomers now rows cs).map fun c => c.id).Nodup) := by
  have hbatchlen : ∀ (k : Nat) (rs : List ImportRow),
      (mapWithIndex (fun i r => importRowToCustomer now i r) k rs).length
        = rs.length := by
    intro k rs
    induction rs generalizing k with
    | nil => rfl
    | cons r rs ih => simp only [mapWithIndex, List.length_cons, ih]
  refine ⟨rfl, List.take_left cs _, ?_, ?_, List.take_left cs _, ?_,
    import_batch_ids_nodup now 0 rows, ?_⟩
  · show (cs ++ [withId (natDecStr now) d]).length = cs.length + 1
    simp
  · intro hfresh
    show ((cs ++ [withId (natDecStr now) d]).map fun c => c.id).Nodup
    rw [List.map_append, List.nodup_append]
    refine ⟨hnodup, by simp, ?_⟩
    intro x hx hx2
    simp only [List.map_cons, List.map_nil, List.mem_singleton] at hx2
    rw [hx2] at hx
    exact hfresh hx
  · show (cs ++ mapWithIndex (fun i r => importRowToCustomer now i r) 0 rows).length
        = cs.length + rows.length
    rw [List.length_append, hbatchlen 0 rows]
  · intro hfresh
    show ((cs ++ mapWithIndex (fun i r => importRowToCustomer now i r) 0 rows).map
      fun c => c.id).Nodup
    rw [List.map_append, List.nodup_append]
    refine ⟨hnodup, import_batch_ids_nodup now 0 rows, ?_⟩
    intro x hx hx2
    rw [List.mem_map] at hx2
    obtain ⟨c, hc, hid⟩ := hx2
    obtain ⟨i, r2, _, hlt, he⟩ := mapWithIndex_mem _ 0 rows c hc
    have hx' : x = importId now i := by
      rw [← hid, ← he]
      rfl
    rw [hx'] at hx
    exact hfresh i (by omega) hx

theorem C9_create_import_ids_witness :
    ((createCustomer 5 draftA [cJan]).map fun c => c.id).Nodup
    ∧ ((importCustomers 5 [rowA] [cJan]).map fun c => c.id).Nodup := by
  have h := C9_create_import_ids 5 draftA [rowA] [cJan] (by decide)
  exact ⟨h.2.2.2.1 (by decide), h.2.2.2.2.2.2.2 (by decide)⟩
